import Mathlib

/-!
Shallow embedding of the parsing dispatcher (src/utils/file_parser.py) and the
cleaning engine (src/data_engine/cleaner.py) of the repository, together with
theorems settling the frozen claims about them.

Conventions of the embedding:
* pandas DataFrames are modelled twice, matching the two usage styles of the
  source: a row-major record `DF` (column names, column dtypes, rows of cells)
  for the row-oriented pipeline `clean_dataframe`, and a column-major record
  `CDF` (a list of named, typed columns) for the column-loop functions
  `clean_data_file` and `detect_outliers`.
* a cell is missing (`Cell.na`, modelling numpy NaN / None), a text value
  (`Cell.str`), or a numeric value (`Cell.num`, modelled as `Rat`; all
  numeric computations of the source that matter to the claims are exact
  at the inputs considered, and the z-score threshold test |z| > 3 is
  expressed equivalently as dev^2 > 9 * var to stay inside `Rat`).
* Python exceptions that escape a function are modelled by `Except PyErr`;
  a function of the source that cannot raise keeps a plain result type.
* Python resolves the global names referenced by an expression at call time;
  the dictionary literal built by the dispatcher `parse_file` is therefore
  modelled as a sequence of lookups of its value names in the list of names
  actually bound at the top level of the module, each failed lookup raising
  `PyErr.nameError`, exactly as in CPython.
-/

/-- Model of Python str.strip(): drop leading and trailing whitespace
(defined over the character list so that proofs can compute with it). -/
def pyStrip (s : String) : String :=
  String.mk (((s.toList.dropWhile Char.isWhitespace).reverse.dropWhile
    Char.isWhitespace).reverse)

/-- Model of Python str.lower() (ASCII case folding). -/
def pyLower (s : String) : String :=
  String.mk (s.toList.map Char.toLower)

/-- Model of Python str.replace(old, new) for a one-character pattern and a
one-character replacement, the only form the source uses. -/
def pyReplaceChar (old new : Char) (s : String) : String :=
  String.mk (s.toList.map (fun c => if c = old then new else c))

/-- A single table cell: missing marker, text value, or numeric value. -/
inductive Cell where
  | na : Cell
  | str : String → Cell
  | num : Rat → Cell
deriving DecidableEq, Repr

/-- The dtype of a pandas column as far as the source distinguishes them:
`obj` is the object/text dtype selected by select_dtypes(include=["object"]),
`numeric` is any numpy number dtype selected by include=[np.number]. -/
inductive Dtype where
  | obj : Dtype
  | numeric : Dtype
deriving DecidableEq, Repr

/-- Whether a cell is the missing marker (pandas isnull on one cell). -/
def isNaB : Cell → Bool
  | Cell.na => true
  | _ => false

/-- Row-major DataFrame: column names, column dtypes, and rows of cells.
Well-formed tables have `dtypes.length = names.length` and every row of
length `names.length`; the theorems that need this state it explicitly. -/
structure DF where
  names : List String
  dtypes : List Dtype
  rows : List (List Cell)
deriving DecidableEq, Repr

/-- The empty DataFrame `pd.DataFrame()`. -/
def emptyDF : DF := { names := [], dtypes := [], rows := [] }

/-- pandas `df.empty`: true when some axis has length zero. -/
def dfEmpty (df : DF) : Bool := df.rows.isEmpty || df.names.isEmpty

/-- Keep the elements of `xs` whose position holds `true` in `mask`
(used to drop columns selected by a boolean mask, as pandas does). -/
def maskFilter {α : Type} (mask : List Bool) (xs : List α) : List α :=
  (mask.zip xs).filterMap (fun p => if p.1 then some p.2 else none)

/-- Worker for `dedupFirst`: `seen` holds the elements already emitted. -/
def dedupFirstAux {α : Type} [DecidableEq α] (seen : List α) : List α → List α
  | [] => []
  | r :: rs => if r ∈ seen then dedupFirstAux seen rs
               else r :: dedupFirstAux (r :: seen) rs

/-- Remove duplicates keeping the first occurrence, as
`DataFrame.drop_duplicates()` does (pandas compares missing markers equal,
and so does `DecidableEq Cell`). -/
def dedupFirst {α : Type} [DecidableEq α] (l : List α) : List α :=
  dedupFirstAux [] l

/-! ## src/utils/file_parser.py -/

/-- A Python exception escaping one of the modelled functions. -/
inductive PyErr where
  | nameError : String → PyErr
  | valueError : String → PyErr
deriving DecidableEq, Repr

/-- The names bound at the top level of utils/file_parser.py once the module
is loaded: imported modules/objects and every `def`/assignment of the file.
Note that no definition of the file binds the name parse_txt (nor
parse_txt_file, parse_hl7_file, parse_log_file, parse_eml_file). -/
def fileParserModuleNames : List String :=
  ["os", "re", "json", "shutil", "mimetypes", "ET", "pd", "eml_parser",
   "UploadFile", "logger", "csv", "io", "pdfplumber", "pq", "fitz", "hl7",
   "parse_csv_file", "parse_excel_file", "parse_json_file",
   "parse_parquet_file", "parse_xml_file", "parse_pdf_file",
   "parse_file", "SUPPORTED_FORMATS", "UPLOAD_DIR", "save_uploaded_file",
   "is_supported_format", "detect_file_format",
   "parse_csv", "parse_excel", "parse_json", "parse_parquet", "parse_xml",
   "parse_sql", "parse_log", "parse_hl7", "parse_pdf", "parse_eml",
   "parse_sql_file", "parse_text_file", "Union"]

/-- The key/value-name pairs of the dict literal `parser_map` in the second
definition of `parse_file` (file_parser.py lines 131-144), in source order. -/
def parserMapEntries : List (String × String) :=
  [(".csv", "parse_csv"), (".xlsx", "parse_excel"), (".xls", "parse_excel"),
   (".json", "parse_json"), (".parquet", "parse_parquet"),
   (".txt", "parse_txt"), (".xml", "parse_xml"), (".sql", "parse_sql"),
   (".log", "parse_log"), (".hl7", "parse_hl7"), (".pdf", "parse_pdf"),
   (".eml", "parse_eml")]

/-- CPython global-name lookup at call time: a name not bound in the module
namespace raises NameError. -/
def evalName (n : String) : Except PyErr String :=
  if fileParserModuleNames.contains n then Except.ok n
  else Except.error (PyErr.nameError n)

/-- Evaluating the `parser_map` dict literal: CPython evaluates the entries
in source order and the first unresolvable value name raises. -/
def buildParserMap : List (String × String) → Except PyErr (List (String × String))
  | [] => Except.ok []
  | (k, v) :: rest => do
      let fn ← evalName v
      let tail ← buildParserMap rest
      Except.ok ((k, fn) :: tail)

/-- Largest index of `c` in the character list, if any. -/
def lastIdxOf (c : Char) (cs : List Char) : Option Nat :=
  (cs.zip (List.range cs.length)).foldl
    (fun acc p => if p.1 = c then some p.2 else acc) none

/-- Model of `os.path.splitext(path)[1]`: the extension of the last path
component, beginning at its last dot, except that dots leading the
component do not start an extension. -/
def splitextExt (path : String) : String :=
  let cs := path.toList
  let base := match lastIdxOf ('/') cs with
    | none => cs
    | some p => cs.drop (p + 1)
  match lastIdxOf ('.') base with
  | none => ""
  | some p => if (base.take p).all (fun c => c = '.') then ""
              else String.mk (base.drop p)

/-- SUPPORTED_FORMATS (file_parser.py lines 94-97). -/
def SUPPORTED_FORMATS : List String :=
  [".csv", ".xlsx", ".xls", ".json", ".parquet", ".txt",
   ".xml", ".sql", ".log", ".hl7", ".pdf", ".eml"]

/-- A representative fragment of the table consulted by the Python stdlib
function `mimetypes.guess_type` (external library: extension-to-MIME map;
the stdlib table has no entry for ".zzz"). -/
def mimetypesTable : List (String × String) :=
  [(".html", "text/html"), (".htm", "text/html"), (".zip", "application/zip"),
   (".doc", "application/msword"), (".gif", "image/gif"),
   (".jpg", "image/jpeg"), (".png", "image/png"), (".tar", "application/x-tar"),
   (".mp3", "audio/mpeg"), (".exe", "application/x-msdownload")]

/-- Model of `mimetypes.guess_type(path)[0]`. -/
def guess_type (path : String) : Option String :=
  ((mimetypesTable.filter (fun p => p.1 == pyLower (splitextExt path))).headD
    (("", ""))).2 |> (fun m => if m == "" then none else some m)

/-- detect_file_format (file_parser.py lines 118-123): extension lookup, then
MIME fallback, then the plain string "unknown"; it never raises. -/
def detect_file_format (path : String) : String :=
  let ext := pyLower (splitextExt path)
  if SUPPORTED_FORMATS.contains ext then ext
  else ((guess_type path).getD ("unknown"))

/-- The dispatcher parse_file (file_parser.py lines 128-156, the second and
binding definition of the name). `parsers` abstracts the behaviour of the
individual parser functions the dict values would resolve to (the theorems
about the dispatcher hold for every such behaviour): first the extension is
computed, then the dict literal is evaluated, then the unsupported-extension
check runs (returning `pd.DataFrame()`), and only then the chosen parser is
called inside try/except, every exception being swallowed into
`pd.DataFrame()`. -/
def parse_file (parsers : String → String → Except PyErr DF)
    (file_path : String) : Except PyErr DF :=
  let ext := pyLower (splitextExt file_path)
  match buildParserMap parserMapEntries with
  | Except.error e => Except.error e
  | Except.ok pmap =>
      if (pmap.map Prod.fst).contains ext then
        match parsers (((pmap.filter (fun p => p.1 == ext)).headD (("", ""))).2)
            file_path with
        | Except.ok df => Except.ok df
        | Except.error _ => Except.ok emptyDF
      else Except.ok emptyDF

/-! ## src/data_engine/cleaner.py, row-oriented pipeline -/

/-- The list na_values of replace_na_like_values (cleaner.py line 42).
The comparison performed by `DataFrame.replace` is exact and
case-sensitive; this list contains "NaN" but not "nan". -/
def na_values : List String :=
  ["", "na", "n/a", "null", "NULL", "NaN", "-", "--"]

/-- Effect of `df.replace(na_values, np.nan)` on one cell: a text cell equal
to one of the listed strings becomes the missing marker; every other cell
(text, numeric or missing) is unchanged. -/
def replaceCell (c : Cell) : Cell :=
  match c with
  | Cell.str s => if s ∈ na_values then Cell.na else Cell.str s
  | c => c

/-- replace_na_like_values (cleaner.py lines 41-43). -/
def replace_na_like_values (df : DF) : DF :=
  { df with rows := df.rows.map (fun r => r.map replaceCell) }

/-- Column-name cleanup of clean_dataframe line 61:
`col.strip().replace("\n", " ")`. -/
def cleanColName (c : String) : String := pyReplaceChar ('\n') (' ') (pyStrip c)

/-- Column-name normalization of normalize_column_names line 36:
`col.strip().lower().replace(" ", "_")`. -/
def normColName (c : String) : String :=
  pyReplaceChar (' ') ('_') (pyLower (pyStrip c))

/-- normalize_column_names (cleaner.py lines 35-38): renames the columns in
place (the returned list is the new name list, assigned back by callers). -/
def normalize_column_names (df : DF) : DF :=
  { df with names := df.names.map normColName }

/-- Effect of `df[col].astype(str).str.strip()` (clean_dataframe line 66) on
one cell of an object column: `astype(str)` renders the missing marker as
the literal string "nan" (CPython str(float(nan))), renders a numeric value
by its decimal text, keeps a string; then strip trims outer whitespace. -/
def astypeStripCell (c : Cell) : Cell :=
  match c with
  | Cell.na => Cell.str (pyStrip ("nan"))
  | Cell.str s => Cell.str (pyStrip s)
  | Cell.num q => Cell.str (pyStrip (toString q))

/-- Cell transformation of clean_dataframe lines 65-66: the astype/strip
rewrite applies to the columns of object dtype only. -/
def stripDC (d : Dtype) (c : Cell) : Cell :=
  match d with
  | Dtype.obj => astypeStripCell c
  | Dtype.numeric => c

/-- For each column position, whether the whole column is missing
(the column mask consulted by `df.dropna(axis=1, how="all")`). -/
def colAllNaMask (df : DF) : List Bool :=
  (List.range df.names.length).map
    (fun j => df.rows.all (fun r => isNaB (r.getD j Cell.na)))

/-- `df.dropna(axis=1, how="all")` (clean_dataframe line 63): drop every
column all of whose cells are missing, keeping names, dtypes and row
entries of the remaining columns aligned. -/
def dropAllNaColsDF (df : DF) : DF :=
  let keep := (colAllNaMask df).map (fun b => !b)
  { names := maskFilter keep df.names,
    dtypes := maskFilter keep df.dtypes,
    rows := df.rows.map (fun r => maskFilter keep r) }

/-- clean_dataframe (cleaner.py lines 59-71), line by line:
column-name cleanup; drop all-missing rows; drop all-missing columns;
drop duplicate rows; astype(str) + strip on object columns;
replace na-like values. -/
def clean_dataframe (df : DF) : DF :=
  let df1 : DF := { df with names := df.names.map cleanColName }
  let df2 : DF := { df1 with rows := df1.rows.filter (fun r => !(r.all isNaB)) }
  let df3 : DF := dropAllNaColsDF df2
  let df4 : DF := { df3 with rows := dedupFirst df3.rows }
  let df5 : DF :=
    { df4 with rows := df4.rows.map (fun r => List.zipWith stripDC df4.dtypes r) }
  replace_na_like_values df5

/-- The intermediate table of clean_dataframe at the moment line 65 (the
astype/strip loop) starts executing: after column-name cleanup, row and
column drops, and duplicate removal. -/
def preStripStage (df : DF) : DF :=
  let df1 : DF := { df with names := df.names.map cleanColName }
  let df2 : DF := { df1 with rows := df1.rows.filter (fun r => !(r.all isNaB)) }
  let df3 : DF := dropAllNaColsDF df2
  { df3 with rows := dedupFirst df3.rows }

/-- The DataFrame transformation applied by the cleaning entry points
clean_data (lines 81-82) and clean_and_report (lines 151-153):
clean_dataframe followed by normalize_column_names. -/
def clean_data_transform (df : DF) : DF :=
  normalize_column_names (clean_dataframe df)

/-- Total cell lookup in a row-major table (defaulting to the missing
marker out of bounds). -/
def getCell (df : DF) (i j : Nat) : Cell :=
  (df.rows.getD i []).getD j Cell.na

/-- Per-column counts of missing cells, `df.isnull().sum().to_dict()`
(cleaner.py line 154). -/
def nullSummary (df : DF) : List (String × Nat) :=
  (List.range df.names.length).map
    (fun j => (df.names.getD j (""),
      (df.rows.filter (fun r => isNaB (r.getD j Cell.na))).length))

/-! ## src/data_engine/cleaner.py, column-oriented functions -/

/-- A named, typed pandas column. -/
structure Col where
  name : String
  dtype : Dtype
  cells : List Cell
deriving DecidableEq, Repr

/-- Column-major DataFrame view used by the column-loop functions of
cleaner.py (clean_data_file, detect_outliers). -/
structure CDF where
  cols : List Col
deriving DecidableEq, Repr

/-- Placeholder column (out-of-range default for positional access). -/
def colDefault : Col := { name := "", dtype := Dtype.obj, cells := [] }

/-- Number of rows of a column list (all columns of a well-formed table
have this length). -/
def numRowsC (cols : List Col) : Nat :=
  match cols with
  | [] => 0
  | c :: _ => c.cells.length

/-- The rows of a column-major table, in order. -/
def rowsOfC (cols : List Col) : List (List Cell) :=
  (List.range (numRowsC cols)).map
    (fun i => cols.map (fun c => c.cells.getD i Cell.na))

/-- `df.drop_duplicates()` on the column-major view: keep the first
occurrence of each row and rebuild every column from the kept rows. -/
def dropDupRowsC (df : CDF) : CDF :=
  let kept := dedupFirst (rowsOfC df.cols)
  { cols := (List.range df.cols.length).map
      (fun j =>
        { name := (df.cols.getD j colDefault).name,
          dtype := (df.cols.getD j colDefault).dtype,
          cells := kept.map (fun r => r.getD j Cell.na) }) }

/-- The numeric values of a column, missing cells omitted (the values that
`median`, `mean` and `zscore` consume under skipna / nan_policy="omit"). -/
def colVals (c : Col) : List Rat :=
  c.cells.filterMap (fun x => match x with
    | Cell.num q => some q
    | _ => none)

/-- The non-missing text values of a column (the values counted by
`Series.mode()`, which drops missing entries). -/
def colStrVals (c : Col) : List String :=
  c.cells.filterMap (fun x => match x with
    | Cell.str s => some s
    | _ => none)

/-- Insert a value into an ascending-sorted list, keeping it sorted. -/
def insertSorted (x : Rat) : List Rat → List Rat
  | [] => [x]
  | y :: ys => if x ≤ y then x :: y :: ys else y :: insertSorted x ys

/-- Ascending insertion sort (the sorting numpy performs to take a median). -/
def sortRats (l : List Rat) : List Rat := l.foldr insertSorted []

/-- `Series.median()` with skipna: the middle element of the sorted values,
or the mean of the two middle elements; None when no value exists (pandas
returns NaN then, and `fillna(NaN)` is a no-op). -/
def median (vals : List Rat) : Option Rat :=
  match vals with
  | [] => none
  | _ =>
    let sorted := sortRats vals
    let n := vals.length
    some (if n % 2 = 1 then sorted.getD (n / 2) 0
          else (sorted.getD (n / 2 - 1) 0 + sorted.getD (n / 2) 0) / 2)

/-- Multiplicity of `v` in `vals`. -/
def countVal (vals : List String) (v : String) : Nat :=
  (vals.filter (fun x => x == v)).length

/-- `Series.mode()[0]` over the non-missing values: pandas mode returns the
most frequent values sorted ascending, so index 0 is the lexicographically
smallest value of maximal multiplicity; None when there is no value. -/
def modeMin (vals : List String) : Option String :=
  match vals with
  | [] => none
  | _ =>
    let maxC := (vals.map (countVal vals)).foldl max 0
    (vals.filter (fun v => countVal vals v == maxC)).foldl
      (fun acc v =>
        match acc with
        | none => some v
        | some a => some (if v < a then v else a))
      none

/-- Numeric fill of clean_data_file lines 112-116: a numeric column with a
missing cell gets every missing cell replaced by the column median
(when the median itself is missing, fillna changes nothing). -/
def fillNumCol (c : Col) : Col :=
  if c.dtype == Dtype.numeric && c.cells.any isNaB then
    match median (colVals c) with
    | some m =>
        { c with cells := c.cells.map (fun x => if isNaB x then Cell.num m else x) }
    | none => c
  else c

/-- Categorical fill of clean_data_file lines 119-123: an object column with
a missing cell gets every missing cell replaced by `mode()[0]` when the mode
is non-empty, else by the sentinel "Unknown". -/
def fillCatCol (c : Col) : Col :=
  if c.dtype == Dtype.obj && c.cells.any isNaB then
    let modeVal := (modeMin (colStrVals c)).getD ("Unknown")
    { c with cells := c.cells.map (fun x => if isNaB x then Cell.str modeVal else x) }
  else c

/-- Whitespace strip of clean_data_file lines 126-127 (object columns only). -/
def stripCatCol (c : Col) : Col :=
  if c.dtype == Dtype.obj then
    { c with cells := c.cells.map astypeStripCell }
  else c

/-- clean_data_file (cleaner.py lines 100-134), step by step: drop
all-missing columns; drop duplicate rows; normalize column names; fill
missing numeric cells with the column median; fill missing object cells
with the column mode (or "Unknown"); strip whitespace in object columns.
The write to CSV is a side effect outside the table semantics. -/
def clean_data_file (df : CDF) : CDF :=
  let df1 : CDF := { cols := df.cols.filter (fun c => !(c.cells.all isNaB)) }
  let df2 : CDF := dropDupRowsC df1
  let df3 : CDF := { cols := df2.cols.map (fun c => { c with name := normColName c.name }) }
  let df4 : CDF := { cols := df3.cols.map fillNumCol }
  let df5 : CDF := { cols := df4.cols.map fillCatCol }
  { cols := df5.cols.map stripCatCol }

/-- Outlier count of one numeric column (detect_outliers lines 52-54):
z-scores are computed over the non-missing values with population standard
deviation (scipy zscore, ddof=0, nan_policy="omit"), and the values with
|z| > 3 are counted. Inside `Rat` this is expressed equivalently as
dev^2 > 9 * var with var > 0; a zero-variance or empty column contributes
zero (the z-scores are then NaN, and NaN > 3 is false). -/
def outlierCountCol (cells : List Cell) : Nat :=
  let vals := cells.filterMap (fun x => match x with
    | Cell.num q => some q
    | _ => none)
  let n := vals.length
  if n = 0 then 0
  else
    let mean : Rat := vals.sum / (n : Rat)
    let var : Rat := ((vals.map (fun v => (v - mean) ^ 2)).sum) / (n : Rat)
    if var = 0 then 0
    else (vals.filter (fun v => decide (9 * var < (v - mean) ^ 2))).length

/-- detect_outliers (cleaner.py lines 46-56): restrict to the numeric
columns, return the empty mapping when that selection is empty (no numeric
column, or no rows), else map each numeric column name to its count. -/
def detect_outliers (df : CDF) : List (String × Nat) :=
  let numeric := df.cols.filter (fun c => c.dtype == Dtype.numeric)
  if numeric.isEmpty || numRowsC df.cols == 0 then []
  else numeric.map (fun c => (c.name, outlierCountCol c.cells))

/-! ## clean_data and clean_and_report (cleaner.py lines 74-88, 141-190) -/

/-- The per-run report dict assembled by clean_and_report (success branch
lines 162-174, error branch lines 178-190); file-path bookkeeping fields
are kept as the strings the source builds. -/
structure Report where
  status : String
  original_file : String
  cleaned_file_path : String
  original_rows : Nat
  cleaned_rows : Nat
  num_columns : Nat
  duplicates_removed : Int
  normalized_columns : List String
  null_summary : List (String × Nat)
  outliers_detected : List (String × Nat)
  error : Option String
deriving DecidableEq, Repr

/-- The message CPython attaches to an escaping exception (used by the
`str(e)` of the error branches). -/
def pyErrMsg : PyErr → String
  | PyErr.nameError n => ("name ") ++ n ++ (" is not defined")
  | PyErr.valueError m => m

/-- clean_data (cleaner.py lines 74-88): parse, reject empty parses with
ValueError, clean and normalize; every escaping exception is logged and
re-raised, so the caller sees it unchanged. The CSV write is a side effect
outside the table semantics. -/
def clean_data (parsers : String → String → Except PyErr DF)
    (input_path : String) : Except PyErr DF :=
  match parse_file parsers input_path with
  | Except.error e => Except.error e
  | Except.ok df =>
      if dfEmpty df then Except.error (PyErr.valueError ("Parsed file is empty"))
      else Except.ok (normalize_column_names (clean_dataframe df))

/-- Column view of a row-major table (used to hand the cleaned table of
clean_and_report to detect_outliers, which loops over columns). -/
def toCDF (df : DF) : CDF :=
  { cols := (List.range df.names.length).map
      (fun j =>
        { name := df.names.getD j (""),
          dtype := df.dtypes.getD j Dtype.obj,
          cells := df.rows.map (fun r => r.getD j Cell.na) }) }

/-- Base name used for the output file: basename(file_path).rsplit(".", 1)[0]. -/
def baseNameNoExt (path : String) : String :=
  let cs := path.toList
  let base := match lastIdxOf ('/') cs with
    | none => cs
    | some p => cs.drop (p + 1)
  match lastIdxOf ('.') base with
  | none => String.mk base
  | some p => String.mk (base.take p)

/-- The error-branch report of clean_and_report (lines 178-190). -/
def errReport (file_path msg : String) : Report :=
  { status := "error", original_file := file_path, cleaned_file_path := "",
    original_rows := 0, cleaned_rows := 0, num_columns := 0,
    duplicates_removed := 0, normalized_columns := [], null_summary := [],
    outliers_detected := [], error := some msg }

/-- clean_and_report (cleaner.py lines 141-190): parse, reject empty parses,
clean, normalize, summarize nulls and outliers, and return the output path
with the success report; every escaping exception of the body is caught and
turned into the error report carrying str(e). -/
def clean_and_report (parsers : String → String → Except PyErr DF)
    (file_path : String) (output_dir : String := "data/cleaned") :
    String × Report :=
  match parse_file parsers file_path with
  | Except.error e => ("", errReport file_path (pyErrMsg e))
  | Except.ok df =>
      if dfEmpty df then
        ("", errReport file_path ("Parsed DataFrame is empty"))
      else
        let original_rows := df.rows.length
        let df1 := clean_dataframe df
        let cleaned_rows := df1.rows.length
        let df2 := normalize_column_names df1
        let cleaned_path :=
          output_dir ++ ("/") ++ baseNameNoExt file_path ++ ("_cleaned.csv")
        (cleaned_path,
          { status := "success", original_file := file_path,
            cleaned_file_path := cleaned_path,
            original_rows := original_rows, cleaned_rows := cleaned_rows,
            num_columns := df2.names.length,
            duplicates_removed := (original_rows : Int) - (cleaned_rows : Int),
            normalized_columns := df2.names,
            null_summary := nullSummary df2,
            outliers_detected := detect_outliers (toCDF df2),
            error := none })

/-! ## The Table Normalizer steps as the specification words them

The specification (section 4.3) describes the Normalizer as exactly seven
steps in a fixed order. Each step below is defined from the wording of the
specification, to be compared with the source pipeline `clean_data_transform`
(refinement claim C4). Steps 1-4, 6 and 7 agree with the source; the
honest reading of step 5 ("trim leading/trailing whitespace in every
text-typed cell", leaving missing cells alone) is `specStep5trim`, while the
source actually performs `astype(str)` first, which is `specStep5astype`. -/

/-- Spec step 1: trim and collapse whitespace/newlines in column names. -/
def specStep1 (df : DF) : DF :=
  { df with names := df.names.map cleanColName }

/-- Spec step 2: drop rows that are entirely missing. -/
def specStep2 (df : DF) : DF :=
  { df with rows := df.rows.filter (fun r => !(r.all isNaB)) }

/-- Spec step 3: drop columns that are entirely missing. -/
def specStep3 (df : DF) : DF := dropAllNaColsDF df

/-- Spec step 4: remove exact-duplicate rows, comparing all columns. -/
def specStep4 (df : DF) : DF :=
  { df with rows := dedupFirst df.rows }

/-- Spec step 5 as worded: trim leading/trailing whitespace in every
text-typed cell, leaving missing markers untouched. -/
def specStep5trim (df : DF) : DF :=
  { df with rows := df.rows.map (fun r =>
      List.zipWith
        (fun d c =>
          match d, c with
          | Dtype.obj, Cell.str s => Cell.str (pyStrip s)
          | _, c => c)
        df.dtypes r) }

/-- Spec step 5 as implemented: astype(str) then strip on the text-typed
columns, so a missing marker becomes the literal string "nan". -/
def specStep5astype (df : DF) : DF :=
  { df with rows := df.rows.map (fun r => List.zipWith stripDC df.dtypes r) }

/-- Spec step 6: replace every NullToken occurrence with the canonical
missing marker (the token list the source compares against is na_values,
exact and case-sensitive). -/
def specStep6 (df : DF) : DF := replace_na_like_values df

/-- Spec step 7: lower-case and underscore-join column names. -/
def specStep7 (df : DF) : DF :=
  { df with names := df.names.map normColName }

/-- The seven-step Normalizer exactly as the specification words it
(step 5 trims only). -/
def specNormalizer (df : DF) : DF :=
  specStep7 (specStep6 (specStep5trim (specStep4 (specStep3 (specStep2 (specStep1 df))))))

/-- The seven-step Normalizer with step 5 amended to the astype(str)+strip
the source performs. -/
def specNormalizerAstype (df : DF) : DF :=
  specStep7 (specStep6 (specStep5astype (specStep4 (specStep3 (specStep2 (specStep1 df))))))

/-! ## Auxiliary predicates and concrete tables used by the theorems -/

/-- Whether a cell is a numeric value. -/
def isNumB : Cell → Bool
  | Cell.num _ => true
  | _ => false

/-- A cell that every stage of the Normalizer leaves unchanged, relative to
the dtype of its column: in a text column it must be a trimmed string that
is not a null token (a missing marker there would be stringified to "nan"
by astype); in a numeric column missing markers and numbers are untouched
but a stray string must still be trimmed and not a null token. -/
def cellFixedB : Dtype → Cell → Bool
  | Dtype.obj, Cell.str s => (pyStrip s == s) && !(decide (s ∈ na_values))
  | Dtype.obj, _ => false
  | Dtype.numeric, Cell.str s => (pyStrip s == s) && !(decide (s ∈ na_values))
  | Dtype.numeric, _ => true

/-- A parser behaviour that always succeeds with the empty table (one
concrete instantiation of the abstracted parser functions; the dispatcher
never reaches it). -/
def trivialParsers : String → String → Except PyErr DF :=
  fun _ _ => Except.ok emptyDF

/-- Two-column table with a column name containing a space, a text cell
with outer whitespace, and a missing text cell (exercises the Normalizer). -/
def exC4 : DF :=
  { names := ["A B", "n"], dtypes := [Dtype.obj, Dtype.numeric],
    rows := [[Cell.str " x ", Cell.num 1], [Cell.na, Cell.num 2]] }

/-- One-column text table whose second cell is the null token "na". -/
def exC5 : DF :=
  { names := ["c"], dtypes := [Dtype.obj],
    rows := [[Cell.str "a"], [Cell.str "na"]] }

/-- Normalized table on which the Normalizer is idempotent. -/
def wdfC5 : DF :=
  { names := ["a_b"], dtypes := [Dtype.obj],
    rows := [[Cell.str "u"], [Cell.str "v"]] }

/-- One-row table holding the uppercase null-token variants. -/
def exC6 : DF :=
  { names := ["c1", "c2", "c3"], dtypes := [Dtype.obj, Dtype.obj, Dtype.obj],
    rows := [[Cell.str "NA", Cell.str "Null", Cell.str "N/A"]] }

/-- Categorical column with a two-way frequency tie y,y,x,x and one missing
cell (the numeric key column keeps the rows distinct). -/
def exC7tie : CDF :=
  { cols := [ { name := "A", dtype := Dtype.numeric,
                cells := [Cell.num 1, Cell.num 2, Cell.num 3, Cell.num 4, Cell.num 5] },
              { name := "B", dtype := Dtype.obj,
                cells := [Cell.str "y", Cell.str "y", Cell.str "x", Cell.str "x", Cell.na] } ] }

/-- The mode-imputation scenario of the specification: x,x,y,missing. -/
def exC7spec : CDF :=
  { cols := [ { name := "A", dtype := Dtype.numeric,
                cells := [Cell.num 1, Cell.num 2, Cell.num 3, Cell.num 4] },
              { name := "B", dtype := Dtype.obj,
                cells := [Cell.str "x", Cell.str "x", Cell.str "y", Cell.na] } ] }

/-- A categorical column with no non-missing value at all. -/
def exC7allna : CDF :=
  { cols := [ { name := "A", dtype := Dtype.numeric,
                cells := [Cell.num 1, Cell.num 2] },
              { name := "B", dtype := Dtype.obj,
                cells := [Cell.na, Cell.na] } ] }

/-- Numeric column 1,2,missing,4 (median of the present values is 2). -/
def exC7med : CDF :=
  { cols := [ { name := "A", dtype := Dtype.numeric,
                cells := [Cell.num 1, Cell.num 2, Cell.na, Cell.num 4] },
              { name := "B", dtype := Dtype.obj,
                cells := [Cell.str "p", Cell.str "q", Cell.str "r", Cell.str "s"] } ] }

/-- The outlier scenario column 1,2,3,4,100 of the specification. -/
def exSpike : CDF :=
  { cols := [ { name := "a", dtype := Dtype.numeric,
                cells := [Cell.num 1, Cell.num 2, Cell.num 3, Cell.num 4, Cell.num 100] } ] }

/-- The zero-variance column 5,5,5,5,5 of the specification. -/
def exConst : CDF :=
  { cols := [ { name := "a", dtype := Dtype.numeric,
                cells := [Cell.num 5, Cell.num 5, Cell.num 5, Cell.num 5, Cell.num 5] } ] }

/-- Table with a text column whose second cell is missing next to a numeric
key column (so the row is not dropped as all-missing). -/
def exC10 : DF :=
  { names := ["n", "t"], dtypes := [Dtype.numeric, Dtype.obj],
    rows := [[Cell.num 1, Cell.str "a"], [Cell.num 2, Cell.na]] }

/-- One numeric column holding a value and a missing cell (median fill
leaves no missing value). -/
def wdfC8 : CDF :=
  { cols := [ { name := "A", dtype := Dtype.numeric,
                cells := [Cell.num 1, Cell.na] } ] }


/-- Whether a cell is a text value. -/
def isStrB : Cell → Bool
  | Cell.str _ => true
  | _ => false

/-- The table that the imputation loops of clean_data_file (lines 112-123)
iterate over: after the empty-column drop, the duplicate-row drop and the
column-name normalization, before any filling. -/
def preFillStage (df : CDF) : CDF :=
  let df1 : CDF := { cols := df.cols.filter (fun c => !(c.cells.all isNaB)) }
  let df2 : CDF := dropDupRowsC df1
  { cols := df2.cols.map (fun c => { c with name := normColName c.name }) }

/-! ## Helper lemmas -/

theorem getD_map_of_lt {α β : Type} (f : α → β) (l : List α) (j : Nat)
    (h : j < l.length) (d : β) (d2 : α) :
    (l.map f).getD j d = f (l.getD j d2) := by
  induction l generalizing j with
  | nil => simp at h
  | cons x xs ih =>
    cases j with
    | zero => rfl
    | succ j => exact ih j (by simpa using h) 

theorem getD_zipWith_of_lt {α β γ : Type} (f : α → β → γ) (a : List α)
    (b : List β) (j : Nat) (ha : j < a.length) (hb : j < b.length)
    (d : γ) (da : α) (db : β) :
    (List.zipWith f a b).getD j d = f (a.getD j da) (b.getD j db) := by
  induction a generalizing b j with
  | nil => simp at ha
  | cons x xs ih =>
    cases b with
    | nil => simp at hb
    | cons y ys =>
      cases j with
      | zero => rfl
      | succ j => exact ih ys j (by simpa using ha) (by simpa using hb)

theorem getD_mem {α : Type} (l : List α) (i : Nat) (d : α) (h : i < l.length) :
    l.getD i d ∈ l := by
  induction l generalizing i with
  | nil => simp at h
  | cons x xs ih =>
    cases i with
    | zero => exact List.mem_cons_self _ _
    | succ i => exact List.mem_cons_of_mem _ (ih i (by simpa using h))

theorem getD_of_le {α : Type} (l : List α) (i : Nat) (d : α)
    (h : l.length ≤ i) : l.getD i d = d := by
  induction l generalizing i with
  | nil => cases i <;> rfl
  | cons x xs ih =>
    cases i with
    | zero => simp at h
    | succ i => exact ih i (by simpa using h)

theorem exists_getD_of_mem {α : Type} (l : List α) (x d : α) (h : x ∈ l) :
    ∃ i, i < l.length ∧ l.getD i d = x := by
  induction l with
  | nil => simp at h
  | cons y ys ih =>
    rcases List.mem_cons.mp h with h1 | h1
    · exact ⟨0, by simp, h1.symm⟩
    · rcases ih h1 with ⟨i, hi, hg⟩
      exact ⟨i + 1, by simpa using hi, hg⟩

theorem mem_dedupFirstAux {α : Type} [DecidableEq α] (l : List α) (a : α) :
    ∀ seen : List α, a ∈ l → a ∉ seen → a ∈ dedupFirstAux seen l := by
  induction l with
  | nil => intro seen hl _; simp at hl
  | cons r rs ih =>
    intro seen hl hs
    by_cases hr : r ∈ seen
    · simp only [dedupFirstAux, if_pos hr]
      rcases List.mem_cons.mp hl with h1 | h1
      · exact absurd (h1 ▸ hr) hs
      · exact ih seen h1 hs
    · simp only [dedupFirstAux, if_neg hr]
      rcases List.mem_cons.mp hl with h1 | h1
      · exact h1 ▸ List.mem_cons_self _ _
      · by_cases har : a = r
        · exact har ▸ List.mem_cons_self _ _
        · refine List.mem_cons_of_mem _ (ih (r :: seen) h1 ?_)
          simp only [List.mem_cons, not_or]
          exact ⟨har, hs⟩

theorem dedupFirst_mem {α : Type} [DecidableEq α] (l : List α) (a : α)
    (h : a ∈ l) : a ∈ dedupFirst l :=
  mem_dedupFirstAux l a [] h (by simp)

theorem mem_of_mem_dedupFirstAux {α : Type} [DecidableEq α] (l : List α) (a : α) :
    ∀ seen : List α, a ∈ dedupFirstAux seen l → a ∈ l := by
  induction l with
  | nil => intro seen h; simp [dedupFirstAux] at h
  | cons r rs ih =>
    intro seen h
    by_cases hr : r ∈ seen
    · simp only [dedupFirstAux, if_pos hr] at h
      exact List.mem_cons_of_mem _ (ih seen h)
    · simp only [dedupFirstAux, if_neg hr] at h
      rcases List.mem_cons.mp h with h1 | h1
      · exact h1 ▸ List.mem_cons_self _ _
      · exact List.mem_cons_of_mem _ (ih (r :: seen) h1)

theorem dedupFirstAux_of_nodup {α : Type} [DecidableEq α] (l : List α) :
    ∀ seen : List α, l.Nodup → (∀ a ∈ l, a ∉ seen) →
      dedupFirstAux seen l = l := by
  induction l with
  | nil => intro _ _ _; rfl
  | cons r rs ih =>
    intro seen hn hd
    have hr : r ∉ seen := hd r (List.mem_cons_self _ _)
    simp only [dedupFirstAux, if_neg hr]
    congr 1
    refine ih (r :: seen) (List.nodup_cons.mp hn).2 ?_
    intro a ha
    simp only [List.mem_cons, not_or]
    exact ⟨fun he => (List.nodup_cons.mp hn).1 (he ▸ ha),
           hd a (List.mem_cons_of_mem _ ha)⟩

theorem dedupFirst_of_nodup {α : Type} [DecidableEq α] (l : List α)
    (hn : l.Nodup) : dedupFirst l = l :=
  dedupFirstAux_of_nodup l [] hn (by simp)

theorem maskFilter_all_true {α : Type} (mask : List Bool) :
    ∀ xs : List α, (∀ b ∈ mask, b = true) → xs.length ≤ mask.length →
      maskFilter mask xs = xs := by
  induction mask with
  | nil =>
    intro xs _ hl
    cases xs with
    | nil => rfl
    | cons x xs => simp at hl
  | cons b bs ih =>
    intro xs hm hl
    cases xs with
    | nil => rfl
    | cons x xs =>
      have hb : b = true := hm b (List.mem_cons_self _ _)
      subst hb
      have htail : maskFilter bs xs = xs :=
        ih xs (fun c hc => hm c (List.mem_cons_of_mem _ hc)) (by simpa using hl)
      simp only [maskFilter, List.zip_cons_cons, List.filterMap_cons] at htail ⊢
      simp [htail]

theorem map_eq_self_of_all {α : Type} (f : α → α) (l : List α)
    (h : ∀ x ∈ l, f x = x) : l.map f = l := by
  induction l with
  | nil => rfl
  | cons x xs ih =>
    simp only [List.map_cons]
    rw [h x (List.mem_cons_self _ _),
        ih (fun y hy => h y (List.mem_cons_of_mem _ hy))]

theorem zipWith_eq_right {α β : Type} (f : α → β → β) (a : List α) :
    ∀ b : List β, b.length ≤ a.length → (∀ p ∈ a.zip b, f p.1 p.2 = p.2) →
      List.zipWith f a b = b := by
  induction a with
  | nil =>
    intro b hl _
    cases b with
    | nil => rfl
    | cons y ys => simp at hl
  | cons x xs ih =>
    intro b hl h
    cases b with
    | nil => rfl
    | cons y ys =>
      simp only [List.zipWith_cons_cons]
      rw [h (x, y) (by simp [List.zip_cons_cons]),
          ih ys (by simpa using hl)
            (fun p hp => h p (by simp [List.zip_cons_cons, hp]))]

theorem mem_zip_right_of_le {α β : Type} (a : List α) :
    ∀ b : List β, b.length ≤ a.length → ∀ y ∈ b, ∃ x, (x, y) ∈ a.zip b := by
  induction a with
  | nil =>
    intro b hl y hy
    cases b with
    | nil => simp at hy
    | cons z zs => simp at hl
  | cons x xs ih =>
    intro b hl y hy
    cases b with
    | nil => simp at hy
    | cons z zs =>
      rcases List.mem_cons.mp hy with h1 | h1
      · exact ⟨x, by simp [List.zip_cons_cons, h1]⟩
      · rcases ih zs (by simpa using hl) y h1 with ⟨x2, hx2⟩
        exact ⟨x2, by simp [List.zip_cons_cons]; exact Or.inr hx2⟩

theorem median_isSome (vals : List Rat) (h : vals ≠ []) :
    ∃ m, median vals = some m := by
  cases vals with
  | nil => exact absurd rfl h
  | cons x xs => exact ⟨_, rfl⟩

/-- The source pipeline clean_dataframe followed by normalize_column_names
is definitionally the seven spec steps with step 5 in astype form. -/
theorem clean_transform_as_steps (df : DF) :
    clean_data_transform df = specNormalizerAstype df := rfl

/-- clean_dataframe is definitionally the astype/strip map followed by the
token replacement, applied to the stage reached before line 65. -/
theorem clean_dataframe_as_prestrip (df : DF) :
    clean_dataframe df =
      replace_na_like_values
        { preStripStage df with
          rows := (preStripStage df).rows.map
            (fun r => List.zipWith stripDC (preStripStage df).dtypes r) } := rfl

theorem stripDC_eq_self (d : Dtype) (c : Cell) (h : cellFixedB d c = true) :
    stripDC d c = c := by
  cases d with
  | numeric => rfl
  | obj =>
    cases c with
    | na => simp [cellFixedB] at h
    | num q => simp [cellFixedB] at h
    | str s =>
      simp only [cellFixedB, Bool.and_eq_true, beq_iff_eq] at h
      simp only [stripDC, astypeStripCell, h.1]

theorem replaceCell_eq_self (d : Dtype) (c : Cell) (h : cellFixedB d c = true) :
    replaceCell c = c := by
  cases c with
  | na => rfl
  | num q => rfl
  | str s =>
    have hs : ¬ s ∈ na_values := by
      cases d <;>
        · simp only [cellFixedB, Bool.and_eq_true, Bool.not_eq_true',
            decide_eq_false_iff_not] at h
          exact h.2
    simp only [replaceCell, if_neg hs]

theorem specStep1_id (df : DF) (h : ∀ n ∈ df.names, cleanColName n = n) :
    specStep1 df = df := by
  unfold specStep1
  rw [map_eq_self_of_all _ _ h]

theorem specStep2_id (df : DF) (h : ∀ r ∈ df.rows, r.all isNaB = false) :
    specStep2 df = df := by
  unfold specStep2
  rw [List.filter_eq_self.mpr]
  intro r hr
  simp [h r hr]

theorem specStep3_id (df : DF)
    (hmask : ∀ b ∈ colAllNaMask df, b = false)
    (hd : df.dtypes.length = df.names.length)
    (hr : ∀ r ∈ df.rows, r.length = df.names.length) :
    specStep3 df = df := by
  simp only [specStep3, dropAllNaColsDF]
  have hkeep : ∀ b ∈ (colAllNaMask df).map (fun b => !b), b = true := by
    intro b hb
    rcases List.mem_map.mp hb with ⟨c, hc, he⟩
    rw [← he, hmask c hc]
    rfl
  have hklen : ((colAllNaMask df).map (fun b => !b)).length = df.names.length := by
    simp [colAllNaMask]
  rw [maskFilter_all_true _ df.names hkeep (by rw [hklen])]
  rw [maskFilter_all_true _ df.dtypes hkeep (by rw [hklen, ← hd])]
  rw [map_eq_self_of_all _ df.rows
    (fun r hrm => maskFilter_all_true _ r hkeep (by rw [hklen, ← hr r hrm]))]

theorem specStep4_id (df : DF) (h : df.rows.Nodup) : specStep4 df = df := by
  unfold specStep4
  rw [dedupFirst_of_nodup _ h]

theorem specStep5_id (df : DF)
    (hd : df.dtypes.length = df.names.length)
    (hr : ∀ r ∈ df.rows, r.length = df.names.length)
    (hcells : ∀ r ∈ df.rows, ∀ p ∈ df.dtypes.zip r, cellFixedB p.1 p.2 = true) :
    specStep5astype df = df := by
  unfold specStep5astype
  rw [map_eq_self_of_all _ df.rows
    (fun r hrm => zipWith_eq_right _ _ r (by rw [hr r hrm, ← hd])
      (fun p hp => stripDC_eq_self p.1 p.2 (hcells r hrm p hp)))]

theorem specStep6_id (df : DF)
    (hd : df.dtypes.length = df.names.length)
    (hr : ∀ r ∈ df.rows, r.length = df.names.length)
    (hcells : ∀ r ∈ df.rows, ∀ p ∈ df.dtypes.zip r, cellFixedB p.1 p.2 = true) :
    specStep6 df = df := by
  unfold specStep6 replace_na_like_values
  rw [map_eq_self_of_all _ df.rows (fun r hrm => ?_)]
  refine map_eq_self_of_all _ r (fun c hc => ?_)
  rcases mem_zip_right_of_le df.dtypes r (by rw [hr r hrm, ← hd]) c hc with ⟨d, hp⟩
  exact replaceCell_eq_self d c (hcells r hrm (d, c) hp)

theorem specStep7_id (df : DF) (h : ∀ n ∈ df.names, normColName n = n) :
    specStep7 df = df := by
  unfold specStep7
  rw [map_eq_self_of_all _ _ h]

theorem stripCatCol_dtype (c : Col) : (stripCatCol c).dtype = c.dtype := by
  unfold stripCatCol
  split <;> rfl

theorem fillCatCol_dtype (c : Col) : (fillCatCol c).dtype = c.dtype := by
  unfold fillCatCol
  split <;> rfl

theorem fillNumCol_dtype (c : Col) : (fillNumCol c).dtype = c.dtype := by
  unfold fillNumCol
  split
  · split <;> rfl
  · rfl

theorem stripCatCol_of_numeric (c : Col) (h : c.dtype = Dtype.numeric) :
    stripCatCol c = c := by
  unfold stripCatCol
  rw [if_neg]
  simp [h]

theorem fillCatCol_of_numeric (c : Col) (h : c.dtype = Dtype.numeric) :
    fillCatCol c = c := by
  unfold fillCatCol
  rw [if_neg]
  simp [h]

theorem fillNumCol_no_na (c : Col) (hdt : c.dtype = Dtype.numeric)
    (hex : ∃ q, Cell.num q ∈ c.cells) : Cell.na ∉ (fillNumCol c).cells := by
  unfold fillNumCol
  by_cases hna : c.cells.any isNaB
  · rw [if_pos (by simp [hdt, hna])]
    obtain ⟨q, hq⟩ := hex
    have hv : q ∈ colVals c := List.mem_filterMap.mpr ⟨Cell.num q, hq, rfl⟩
    have hvne : colVals c ≠ [] := by
      intro he
      rw [he] at hv
      simp at hv
    obtain ⟨m, hm⟩ := median_isSome _ hvne
    rw [hm]
    intro hcon
    obtain ⟨x, _, hxe⟩ := List.mem_map.mp hcon
    by_cases hx2 : isNaB x = true
    · rw [if_pos hx2] at hxe
      exact Cell.noConfusion hxe
    · rw [if_neg hx2] at hxe
      rw [hxe] at hx2
      exact hx2 rfl
  · rw [if_neg (by simp [hna])]
    intro hcon
    exact (by simpa using hna : ¬ _) (List.any_eq_true.mpr ⟨Cell.na, hcon, rfl⟩)

theorem dropDupRowsC_cols_char (df : CDF) (c : Col)
    (h : c ∈ (dropDupRowsC df).cols) :
    ∃ j, j < df.cols.length ∧
      c.dtype = (df.cols.getD j colDefault).dtype ∧
      c.cells = (dedupFirst (rowsOfC df.cols)).map (fun r => r.getD j Cell.na) := by
  unfold dropDupRowsC at h
  obtain ⟨j, hj, hc⟩ := List.mem_map.mp h
  exact ⟨j, List.mem_range.mp hj, by rw [← hc], by rw [← hc]⟩

theorem dedup_col_value (cols : List Col) (n : Nat)
    (hlen : ∀ c ∈ cols, c.cells.length = n) (j : Nat) (hj : j < cols.length)
    (x : Cell) (hx : x ∈ (cols.getD j colDefault).cells) :
    x ∈ (dedupFirst (rowsOfC cols)).map (fun r => r.getD j Cell.na) := by
  have hcj : cols.getD j colDefault ∈ cols := getD_mem cols j colDefault hj
  obtain ⟨i, hi, hig⟩ := exists_getD_of_mem _ x Cell.na hx
  have hnr : numRowsC cols = n := by
    cases cols with
    | nil => simp at hj
    | cons c0 cs => exact hlen c0 (List.mem_cons_self _ _)
  have hi2 : i < numRowsC cols := by
    rw [hnr]
    rw [hlen _ hcj] at hi
    exact hi
  have hrow : cols.map (fun c => c.cells.getD i Cell.na) ∈ rowsOfC cols :=
    List.mem_map.mpr ⟨i, List.mem_range.mpr hi2, rfl⟩
  refine List.mem_map.mpr ⟨_, dedupFirst_mem _ _ hrow, ?_⟩
  rw [getD_map_of_lt _ _ j hj _ colDefault]
  exact hig


theorem dedup_col_sub (cols : List Col) (n : Nat)
    (hlen : ∀ c ∈ cols, c.cells.length = n) (j : Nat) (hj : j < cols.length)
    (y : Cell)
    (hy : y ∈ (dedupFirst (rowsOfC cols)).map (fun r => r.getD j Cell.na)) :
    y ∈ (cols.getD j colDefault).cells := by
  obtain ⟨r, hr, hre⟩ := List.mem_map.mp hy
  have hr2 : r ∈ rowsOfC cols := mem_of_mem_dedupFirstAux _ r [] hr
  obtain ⟨i, hi, hie⟩ := List.mem_map.mp hr2
  have hi2 : i < numRowsC cols := List.mem_range.mp hi
  have hnr : numRowsC cols = n := by
    cases cols with
    | nil => simp at hj
    | cons c0 cs => exact hlen c0 (List.mem_cons_self _ _)
  rw [← hre, ← hie]
  rw [getD_map_of_lt _ _ j hj _ colDefault]
  refine getD_mem _ i Cell.na ?_
  rw [hlen _ (getD_mem cols j colDefault hj), ← hnr]
  exact hi2

theorem exists_nonna_of_all_false (cells : List Cell)
    (h : cells.all isNaB = false) : ∃ x ∈ cells, isNaB x = false := by
  induction cells with
  | nil => simp at h
  | cons x xs ih =>
    by_cases hx : isNaB x = false
    · exact ⟨x, List.mem_cons_self _ _, hx⟩
    · have hx2 : isNaB x = true := by
        cases hh : isNaB x
        · exact absurd hh hx
        · rfl
      simp only [List.all_cons, hx2, Bool.true_and] at h
      obtain ⟨y, hy, hyn⟩ := ih h
      exact ⟨y, List.mem_cons_of_mem _ hy, hyn⟩

theorem fillNumCol_of_obj (c : Col) (h : c.dtype = Dtype.obj) :
    fillNumCol c = c := by
  unfold fillNumCol
  rw [if_neg]
  simp [h]

theorem fillNumCol_eq_fill (c : Col) (hd : c.dtype = Dtype.numeric)
    (hna : Cell.na ∈ c.cells) (m : Rat) (hm : median (colVals c) = some m) :
    fillNumCol c =
      { c with cells := (c.cells.map (fun x => if isNaB x then Cell.num m else x)) } := by
  have hcond : (c.dtype == Dtype.numeric && c.cells.any isNaB) = true := by
    simp only [Bool.and_eq_true, beq_iff_eq]
    exact ⟨hd, List.any_eq_true.mpr ⟨Cell.na, hna, rfl⟩⟩
  simp only [fillNumCol, hcond, if_true, hm]

theorem fillCatCol_eq_fill (c : Col) (hd : c.dtype = Dtype.obj)
    (hna : Cell.na ∈ c.cells) (m : String)
    (hm : modeMin (colStrVals c) = some m) :
    fillCatCol c =
      { c with cells := (c.cells.map (fun x => if isNaB x then Cell.str m else x)) } := by
  have hcond : (c.dtype == Dtype.obj && c.cells.any isNaB) = true := by
    simp only [Bool.and_eq_true, beq_iff_eq]
    exact ⟨hd, List.any_eq_true.mpr ⟨Cell.na, hna, rfl⟩⟩
  simp only [fillCatCol, hcond, if_true, hm, Option.getD_some]

theorem foldl_max_init_le (l : List Nat) : ∀ a : Nat, a ≤ l.foldl max a := by
  induction l with
  | nil => intro a; exact le_refl a
  | cons x xs ih => intro a; exact le_trans (le_max_left a x) (ih (max a x))

theorem mem_le_foldl_max (l : List Nat) : ∀ a : Nat, ∀ x ∈ l, x ≤ l.foldl max a := by
  induction l with
  | nil => intro a x hx; simp at hx
  | cons y ys ih =>
    intro a x hx
    rcases List.mem_cons.mp hx with h | h
    · subst h
      exact le_trans (le_max_right a x) (foldl_max_init_le ys (max a x))
    · exact ih (max a y) x h

theorem foldl_max_mem (l : List Nat) :
    ∀ a : Nat, l.foldl max a = a ∨ l.foldl max a ∈ l := by
  induction l with
  | nil => intro a; exact Or.inl rfl
  | cons x xs ih =>
    intro a
    simp only [List.foldl_cons]
    rcases ih (max a x) with h | h
    · by_cases hax : a ≤ x
      · right
        rw [h, max_eq_right hax]
        exact List.mem_cons_self _ _
      · left
        rw [h, max_eq_left (le_of_not_le hax)]
    · right
      exact List.mem_cons_of_mem _ h

theorem minFold_some (l : List String) : ∀ a m : String,
    List.foldl (fun acc v =>
      match acc with
      | none => some v
      | some a2 => some (if v < a2 then v else a2)) (some a) l = some m →
    (m = a ∨ m ∈ l) ∧ m ≤ a ∧ (∀ v ∈ l, m ≤ v) := by
  induction l with
  | nil =>
    intro a m h
    simp only [List.foldl_nil, Option.some.injEq] at h
    subst h
    exact ⟨Or.inl rfl, le_refl _, fun v hv => by simp at hv⟩
  | cons x xs ih =>
    intro a m h
    simp only [List.foldl_cons] at h
    obtain ⟨hmem, hle, hall⟩ := ih (if x < a then x else a) m h
    refine ⟨?_, ?_, ?_⟩
    · rcases hmem with h1 | h1
      · by_cases hx : x < a
        · rw [if_pos hx] at h1
          exact Or.inr (h1 ▸ List.mem_cons_self _ _)
        · rw [if_neg hx] at h1
          exact Or.inl h1
      · exact Or.inr (List.mem_cons_of_mem _ h1)
    · by_cases hx : x < a
      · rw [if_pos hx] at hle
        exact le_trans hle (le_of_lt hx)
      · rw [if_neg hx] at hle
        exact hle
    · intro v hv
      rcases List.mem_cons.mp hv with h1 | h1
      · subst h1
        by_cases hx : v < a
        · rw [if_pos hx] at hle
          exact hle
        · rw [if_neg hx] at hle
          exact le_trans hle (le_of_not_lt hx)
      · exact hall v h1

theorem minFold_from_some_isSome (l : List String) : ∀ a : String,
    ∃ m, List.foldl (fun acc v =>
      match acc with
      | none => some v
      | some a2 => some (if v < a2 then v else a2)) (some a) l = some m := by
  induction l with
  | nil => intro a; exact ⟨a, rfl⟩
  | cons x xs ih =>
    intro a
    simp only [List.foldl_cons]
    exact ih (if x < a then x else a)

theorem modeMin_spec (vals : List String) (m : String)
    (h : modeMin vals = some m) :
    m ∈ vals ∧ (∀ v ∈ vals, countVal vals v ≤ countVal vals m) ∧
      (∀ v ∈ vals, countVal vals v = countVal vals m → m ≤ v) := by
  cases vals with
  | nil => simp [modeMin] at h
  | cons v0 vtl =>
    simp only [modeMin] at h
    cases hc : (v0 :: vtl).filter (fun v =>
        countVal (v0 :: vtl) v ==
          ((v0 :: vtl).map (countVal (v0 :: vtl))).foldl max 0) with
    | nil =>
      rw [hc] at h
      simp at h
    | cons c0 rest =>
      rw [hc, List.foldl_cons] at h
      obtain ⟨hmem, hle0, hall⟩ := minFold_some rest c0 m h
      have hmc : m ∈ c0 :: rest := by
        rcases hmem with h1 | h1
        · exact h1 ▸ List.mem_cons_self _ _
        · exact List.mem_cons_of_mem _ h1
      have hmf := List.mem_filter.mp (hc ▸ hmc)
      have hcount : countVal (v0 :: vtl) m =
          ((v0 :: vtl).map (countVal (v0 :: vtl))).foldl max 0 := by
        have := hmf.2
        simpa using this
      refine ⟨hmf.1, ?_, ?_⟩
      · intro v hv
        rw [hcount]
        exact mem_le_foldl_max _ 0 _ (List.mem_map_of_mem _ hv)
      · intro v hv hveq
        have hvf : v ∈ c0 :: rest := by
          rw [← hc]
          refine List.mem_filter.mpr ⟨hv, ?_⟩
          simp only [beq_iff_eq]
          rw [hveq, hcount]
        rcases List.mem_cons.mp hvf with h1 | h1
        · exact h1 ▸ hle0
        · exact hall v h1

theorem modeMin_isSome (vals : List String) (h : vals ≠ []) :
    ∃ m, modeMin vals = some m := by
  cases vals with
  | nil => exact absurd rfl h
  | cons v0 vtl =>
    have hatt : ∃ v ∈ v0 :: vtl, countVal (v0 :: vtl) v =
        ((v0 :: vtl).map (countVal (v0 :: vtl))).foldl max 0 := by
      rcases foldl_max_mem ((v0 :: vtl).map (countVal (v0 :: vtl))) 0 with h0 | hmem
      · refine ⟨v0, List.mem_cons_self _ _, ?_⟩
        rw [h0]
        exact Nat.le_zero.mp (by
          rw [← h0]
          exact mem_le_foldl_max _ 0 _
            (List.mem_map_of_mem _ (List.mem_cons_self _ _)))
      · obtain ⟨v, hv, hve⟩ := List.mem_map.mp hmem
        exact ⟨v, hv, hve⟩
    obtain ⟨v, hv, hve⟩ := hatt
    have hvf : v ∈ (v0 :: vtl).filter (fun w =>
        countVal (v0 :: vtl) w ==
          ((v0 :: vtl).map (countVal (v0 :: vtl))).foldl max 0) :=
      List.mem_filter.mpr ⟨hv, by simp only [beq_iff_eq]; exact hve⟩
    simp only [modeMin]
    cases hc : (v0 :: vtl).filter (fun w =>
        countVal (v0 :: vtl) w ==
          ((v0 :: vtl).map (countVal (v0 :: vtl))).foldl max 0) with
    | nil =>
      rw [hc] at hvf
      simp at hvf
    | cons c0 rest =>
      rw [List.foldl_cons]
      exact minFold_from_some_isSome rest c0

theorem preFillStage_cols_char (df : CDF) (n : Nat)
    (hlen : ∀ c ∈ df.cols, c.cells.length = n)
    (c : Col) (hc : c ∈ (preFillStage df).cols) :
    ∃ c0 ∈ df.cols, c0.dtype = c.dtype ∧
      (∀ y ∈ c.cells, y ∈ c0.cells) ∧ (∃ x ∈ c.cells, isNaB x = false) := by
  simp only [preFillStage] at hc
  obtain ⟨c2, hc2, he⟩ := List.mem_map.mp hc
  obtain ⟨j, hj, hjd, hjc⟩ := dropDupRowsC_cols_char _ c2 hc2
  have hcj : (List.filter (fun c => !(c.cells.all isNaB)) df.cols).getD j
      colDefault ∈ List.filter (fun c => !(c.cells.all isNaB)) df.cols :=
    getD_mem _ j colDefault hj
  have hcj2 := List.mem_filter.mp hcj
  have hlen1 : ∀ c0 ∈ List.filter (fun c => !(c.cells.all isNaB)) df.cols,
      c0.cells.length = n :=
    fun c0 h0 => hlen c0 (List.mem_filter.mp h0).1
  have hall : ((List.filter (fun c => !(c.cells.all isNaB)) df.cols).getD j
      colDefault).cells.all isNaB = false := by
    have h2 := hcj2.2
    simp only [Bool.not_eq_true'] at h2
    exact h2
  refine ⟨(List.filter (fun c => !(c.cells.all isNaB)) df.cols).getD j
    colDefault, hcj2.1, ?_, ?_, ?_⟩
  · rw [← he]
    exact hjd.symm
  · intro y hy
    rw [← he] at hy
    have hy2 : y ∈ c2.cells := hy
    rw [hjc] at hy2
    exact dedup_col_sub _ n hlen1 j hj y hy2
  · obtain ⟨x, hx, hxn⟩ := exists_nonna_of_all_false _ hall
    refine ⟨x, ?_, hxn⟩
    rw [← he]
    show x ∈ c2.cells
    rw [hjc]
    exact dedup_col_value _ n hlen1 j hj x hx

theorem clean_data_file_as_stages (df : CDF) :
    (clean_data_file df).cols =
      (preFillStage df).cols.map
        (fun c => stripCatCol (fillCatCol (fillNumCol c))) := by
  simp only [clean_data_file, preFillStage, List.map_map]
  rfl

/-! ## Claim theorems -/

/-- C1: for every input path, of any extension, and whatever the individual
parser functions would do, a call to the dispatcher parse_file raises an
unhandled NameError for parse_txt: the dict literal references the name
parse_txt, which no top-level definition of the module binds, and the dict
is evaluated before the unsupported-extension check and the try/except, so
the dispatcher never returns a DataFrame. -/
theorem claim1_parse_file_always_nameerror :
    (∀ (parsers : String → String → Except PyErr DF) (file_path : String),
        parse_file parsers file_path =
          Except.error (PyErr.nameError ("parse_txt")))
    ∧ fileParserModuleNames.contains ("parse_txt") = false :=
  ⟨fun _ _ => rfl, by decide⟩

/-- C2 counterexample: parsing the zero-byte file empty.csv, whose extension
is supported, does not yield a typed EmptyInput result: the dispatcher
raises an unhandled NameError before any parser or emptiness check runs
(shown at one concrete parser behaviour). -/
theorem claim2_counterexample :
    parse_file trivialParsers ("empty.csv") =
      Except.error (PyErr.nameError ("parse_txt")) := rfl

/-- C2 amended: for every supported extension and every behaviour of the
individual parsers, parsing a zero-byte file of that extension raises the
unhandled NameError for parse_txt out of the dispatcher; no EmptyInput
error kind exists in the code, and internal parser failures, were the map
construction to succeed, would be swallowed into an empty DataFrame rather
than typed errors. -/
theorem claim2_amended (parsers : String → String → Except PyErr DF)
    (ext : String) (h : ext ∈ SUPPORTED_FORMATS) :
    parse_file parsers (("empty") ++ ext) =
      Except.error (PyErr.nameError ("parse_txt")) := rfl

theorem claim2_witness :
    (".csv") ∈ SUPPORTED_FORMATS ∧
      parse_file trivialParsers (("empty") ++ (".csv")) =
        Except.error (PyErr.nameError ("parse_txt")) :=
  ⟨by decide, claim2_amended trivialParsers (".csv") (by decide)⟩

/-- C3 counterexample: a file with extension .zzz does not yield an
UnsupportedFormat failure: detect_file_format merely returns the plain
string "unknown" (it cannot fail), and the dispatcher parse_file raises
NameError before its unsupported-extension check is reached. -/
theorem claim3_counterexample :
    detect_file_format ("file.zzz") = "unknown" ∧
      parse_file trivialParsers ("file.zzz") =
        Except.error (PyErr.nameError ("parse_txt")) :=
  ⟨by decide, rfl⟩

/-- C3 amended: for every path whose lower-cased extension is outside the
supported list, classification does fall back to MIME sniffing but never
fails: detect_file_format returns the guessed MIME type or the string
"unknown"; and the dispatcher raises NameError for parse_txt instead of
producing an UnsupportedFormat error (its unreached fallback for an
unsupported extension would be an empty DataFrame). -/
theorem claim3_amended (parsers : String → String → Except PyErr DF)
    (path : String)
    (h : SUPPORTED_FORMATS.contains (pyLower (splitextExt path)) = false) :
    detect_file_format path = (guess_type path).getD ("unknown") ∧
      parse_file parsers path =
        Except.error (PyErr.nameError ("parse_txt")) := by
  refine ⟨?_, rfl⟩
  have h2 : pyLower (splitextExt path) ∉ SUPPORTED_FORMATS := by simpa using h
  unfold detect_file_format
  simp [h2]

theorem claim3_witness :
    SUPPORTED_FORMATS.contains (pyLower (splitextExt ("file.zzz"))) = false ∧
      (detect_file_format ("file.zzz") =
          (guess_type ("file.zzz")).getD ("unknown") ∧
        parse_file trivialParsers ("file.zzz") =
          Except.error (PyErr.nameError ("parse_txt"))) :=
  ⟨by decide, claim3_amended trivialParsers ("file.zzz") (by decide)⟩

/-- C4 counterexample: the composed source pipeline differs from the seven
spec steps read literally (step 5 trimming text cells only): on a table
with a missing cell in a text column the source turns that cell into the
literal string "nan" while the worded steps keep it missing. -/
theorem claim4_counterexample :
    clean_data_transform exC4 ≠ specNormalizer exC4 := by
  with_unfolding_all decide

/-- C4 amended: the Table Normalizer performs exactly the seven steps in
the stated fixed order, with step (5) amended to what line 66 does:
convert every cell of a text-typed column to its string rendering — which
turns missing markers into the literal string "nan" — and then trim
whitespace. -/
theorem claim4_amended (df : DF) :
    clean_data_transform df = specNormalizerAstype df :=
  clean_transform_as_steps df

/-- C6 counterexample: replace_na_like_values compares exactly and
case-sensitively, so the cells "NA", "Null" and "N/A" survive cleaning
unchanged instead of becoming the missing marker as the claim predicts. -/
theorem claim6_counterexample :
    (replace_na_like_values exC6).rows =
        [[Cell.str ("NA"), Cell.str ("Null"), Cell.str ("N/A")]] ∧
      [[Cell.str ("NA"), Cell.str ("Null"), Cell.str ("N/A")]] ≠
        [[Cell.na, Cell.na, Cell.na]] := by
  with_unfolding_all decide

/-- C6 amended: during cleaning a cell becomes the missing marker exactly
when it already is missing or is a text cell whose string belongs to the
exact, case-sensitive list na_values = ["", "na", "n/a", "null", "NULL",
"NaN", "-", "--"]; uppercase variants such as "NA", "Null" or "N/A" are
not replaced. -/
theorem claim6_amended (df : DF) (i j : Nat)
    (hi : i < df.rows.length) (hj : j < (df.rows.getD i []).length) :
    getCell (replace_na_like_values df) i j = Cell.na ↔
      (getCell df i j = Cell.na ∨
        ∃ s, getCell df i j = Cell.str s ∧ s ∈ na_values) := by
  unfold getCell replace_na_like_values
  rw [getD_map_of_lt _ _ i (by simpa using hi) _ []]
  rw [getD_map_of_lt replaceCell _ j hj Cell.na Cell.na]
  cases hc : (df.rows.getD i []).getD j Cell.na with
  | na => simp [replaceCell]
  | num q => simp [replaceCell]
  | str s =>
    by_cases h : s ∈ na_values
    · simp only [replaceCell, if_pos h]
      simp [h]
    · simp only [replaceCell, if_neg h]
      simp [h]

theorem claim6_witness :
    0 < exC6.rows.length ∧ 0 < (exC6.rows.getD 0 []).length ∧
      (getCell (replace_na_like_values exC6) 0 0 = Cell.na ↔
        (getCell exC6 0 0 = Cell.na ∨
          ∃ s, getCell exC6 0 0 = Cell.str s ∧ s ∈ na_values)) :=
  ⟨by decide, by decide, claim6_amended exC6 0 0 (by decide) (by decide)⟩

/-- C5 counterexample: on the Normalizer output of a table whose text
column held the token "na", the normalized table contains a missing cell;
a second run drops that now all-missing row, so the result is not
identical to its input. -/
theorem claim5_counterexample :
    clean_data_transform (clean_data_transform exC5) ≠
      clean_data_transform exC5 := by
  with_unfolding_all decide

/-- C5 amended: the Normalizer is idempotent on well-formed tables that it
can no longer change: column names fixed under both name rewrites, no
entirely-missing row or column, no duplicate rows, and every cell fixed
for its dtype (text cells trimmed and not null tokens, text columns free
of missing markers, which astype(str) would stringify). On an output of
the Normalizer these conditions can fail — the counterexample — because
token replacement runs after the row/column drops and can create missing
cells and duplicate rows. -/
theorem claim5_amended (df : DF)
    (hd : df.dtypes.length = df.names.length)
    (hr : ∀ r ∈ df.rows, r.length = df.names.length)
    (hn : ∀ n ∈ df.names, cleanColName n = n ∧ normColName n = n)
    (hrows : ∀ r ∈ df.rows, r.all isNaB = false)
    (hcols : ∀ b ∈ colAllNaMask df, b = false)
    (hnd : df.rows.Nodup)
    (hcells : ∀ r ∈ df.rows, ∀ p ∈ df.dtypes.zip r, cellFixedB p.1 p.2 = true) :
    clean_data_transform df = df := by
  rw [clean_transform_as_steps]
  unfold specNormalizerAstype
  rw [specStep1_id df (fun n h => (hn n h).1)]
  rw [specStep2_id df hrows]
  rw [specStep3_id df hcols hd hr]
  rw [specStep4_id df hnd]
  rw [specStep5_id df hd hr hcells]
  rw [specStep6_id df hd hr hcells]
  exact specStep7_id df (fun n h => (hn n h).2)

theorem claim5_witness : clean_data_transform wdfC5 = wdfC5 :=
  claim5_amended wdfC5 (by decide) (by decide) (by decide) (by decide)
    (by decide) (by decide) (by decide)

/-- C7 counterexample: on the categorical column y,y,x,x,missing the two
candidate modes x and y are tied and the first-encountered value is y, yet
clean_data_file fills the missing cell with "x": pandas mode() returns the
tied values sorted, and index 0 picks the lexicographically smallest. -/
theorem claim7_counterexample :
    (clean_data_file exC7tie).cols.map (fun c => c.cells) =
        [[Cell.num 1, Cell.num 2, Cell.num 3, Cell.num 4, Cell.num 5],
         [Cell.str ("y"), Cell.str ("y"), Cell.str ("x"), Cell.str ("x"),
          Cell.str ("x")]] ∧
      Cell.str ("x") ≠ Cell.str ("y") := by
  with_unfolding_all decide

/-- C7 amended, for every well-formed, dtype-consistent table: (a) every
column reaching the imputation loops of clean_data_file still holds a
non-missing cell — all-missing columns were dropped before, so the
"Unknown" default of the mode fill is never taken from clean_data_file;
(b) a numeric column with a missing cell is filled cellwise with the
median of its present values; (c) a categorical column with a missing
cell is filled cellwise with mode()[0], which always exists there;
(d) these filled columns, whitespace-stripped, are exactly the output of
clean_data_file; (e) mode()[0] is, for every list of values, the
lexicographically smallest among the most frequent values — the tie is
broken by sort order, not by first encounter; (f) concretely, the
specification example x,x,y,missing imputes "x", the column 1,2,missing,4
imputes the median 2, and an all-missing categorical column is dropped. -/
theorem claim7_amended (df : CDF) (n : Nat)
    (hlen : ∀ c ∈ df.cols, c.cells.length = n)
    (hcons : ∀ c ∈ df.cols, ∀ x ∈ c.cells,
      (c.dtype = Dtype.numeric → x = Cell.na ∨ isNumB x = true) ∧
      (c.dtype = Dtype.obj → x = Cell.na ∨ isStrB x = true)) :
    (∀ c ∈ (preFillStage df).cols, ∃ x ∈ c.cells, isNaB x = false)
    ∧ (∀ c ∈ (preFillStage df).cols, c.dtype = Dtype.numeric →
        Cell.na ∈ c.cells →
        ∃ m, median (colVals c) = some m ∧
          fillNumCol c =
            { c with cells :=
                (c.cells.map (fun x => if isNaB x then Cell.num m else x)) })
    ∧ (∀ c ∈ (preFillStage df).cols, c.dtype = Dtype.obj →
        Cell.na ∈ c.cells →
        ∃ m, modeMin (colStrVals c) = some m ∧
          fillCatCol (fillNumCol c) =
            { c with cells :=
                (c.cells.map (fun x => if isNaB x then Cell.str m else x)) })
    ∧ (clean_data_file df).cols =
        (preFillStage df).cols.map
          (fun c => stripCatCol (fillCatCol (fillNumCol c)))
    ∧ (∀ vals m, modeMin vals = some m →
        m ∈ vals ∧ (∀ v ∈ vals, countVal vals v ≤ countVal vals m) ∧
          (∀ v ∈ vals, countVal vals v = countVal vals m → m ≤ v))
    ∧ (clean_data_file exC7spec).cols.map (fun c => c.cells) =
        [[Cell.num 1, Cell.num 2, Cell.num 3, Cell.num 4],
         [Cell.str ("x"), Cell.str ("x"), Cell.str ("y"), Cell.str ("x")]]
    ∧ (clean_data_file exC7med).cols.map (fun c => c.cells) =
        [[Cell.num 1, Cell.num 2, Cell.num 2, Cell.num 4],
         [Cell.str ("p"), Cell.str ("q"), Cell.str ("r"), Cell.str ("s")]]
    ∧ (clean_data_file exC7allna).cols.map (fun c => c.name) = ["a"] := by
  refine ⟨?_, ?_, ?_, clean_data_file_as_stages df,
    fun vals m h => modeMin_spec vals m h,
    by with_unfolding_all decide, by with_unfolding_all decide,
    by with_unfolding_all decide⟩
  · intro c hc
    obtain ⟨c0, hmem0, hdt0, hsub, hex⟩ := preFillStage_cols_char df n hlen c hc
    exact hex
  · intro c hc hdt hna
    obtain ⟨c0, hmem0, hdt0, hsub, x, hx, hxn⟩ :=
      preFillStage_cols_char df n hlen c hc
    have htyped := (hcons c0 hmem0 x (hsub x hx)).1 (by rw [hdt0, hdt])
    have hq : ∃ q, x = Cell.num q := by
      rcases htyped with h1 | h1
      · rw [h1] at hxn
        simp [isNaB] at hxn
      · cases x with
        | num q => exact ⟨q, rfl⟩
        | na => simp [isNaB] at hxn
        | str s => simp [isNumB] at h1
    obtain ⟨q, hqe⟩ := hq
    have hqv : q ∈ colVals c := List.mem_filterMap.mpr ⟨x, hx, by rw [hqe]⟩
    have hne : colVals c ≠ [] := by
      intro hh
      rw [hh] at hqv
      simp at hqv
    obtain ⟨m, hm⟩ := median_isSome _ hne
    exact ⟨m, hm, fillNumCol_eq_fill c hdt hna m hm⟩
  · intro c hc hdt hna
    obtain ⟨c0, hmem0, hdt0, hsub, x, hx, hxn⟩ :=
      preFillStage_cols_char df n hlen c hc
    have htyped := (hcons c0 hmem0 x (hsub x hx)).2 (by rw [hdt0, hdt])
    have hq : ∃ s2, x = Cell.str s2 := by
      rcases htyped with h1 | h1
      · rw [h1] at hxn
        simp [isNaB] at hxn
      · cases x with
        | str s2 => exact ⟨s2, rfl⟩
        | na => simp [isNaB] at hxn
        | num q => simp [isStrB] at h1
    obtain ⟨sv, hse⟩ := hq
    have hsv : sv ∈ colStrVals c := List.mem_filterMap.mpr ⟨x, hx, by rw [hse]⟩
    have hne : colStrVals c ≠ [] := by
      intro hh
      rw [hh] at hsv
      simp at hsv
    obtain ⟨m, hm⟩ := modeMin_isSome _ hne
    refine ⟨m, hm, ?_⟩
    rw [fillNumCol_of_obj c hdt]
    exact fillCatCol_eq_fill c hdt hna m hm

theorem claim7_witness :
    (∀ c ∈ (preFillStage exC7tie).cols, ∃ x ∈ c.cells, isNaB x = false)
    ∧ (∀ c ∈ (preFillStage exC7tie).cols, c.dtype = Dtype.numeric →
        Cell.na ∈ c.cells →
        ∃ m, median (colVals c) = some m ∧
          fillNumCol c =
            { c with cells :=
                (c.cells.map (fun x => if isNaB x then Cell.num m else x)) })
    ∧ (∀ c ∈ (preFillStage exC7tie).cols, c.dtype = Dtype.obj →
        Cell.na ∈ c.cells →
        ∃ m, modeMin (colStrVals c) = some m ∧
          fillCatCol (fillNumCol c) =
            { c with cells :=
                (c.cells.map (fun x => if isNaB x then Cell.str m else x)) })
    ∧ (clean_data_file exC7tie).cols =
        (preFillStage exC7tie).cols.map
          (fun c => stripCatCol (fillCatCol (fillNumCol c)))
    ∧ (∀ vals m, modeMin vals = some m →
        m ∈ vals ∧ (∀ v ∈ vals, countVal vals v ≤ countVal vals m) ∧
          (∀ v ∈ vals, countVal vals v = countVal vals m → m ≤ v))
    ∧ (clean_data_file exC7spec).cols.map (fun c => c.cells) =
        [[Cell.num 1, Cell.num 2, Cell.num 3, Cell.num 4],
         [Cell.str ("x"), Cell.str ("x"), Cell.str ("y"), Cell.str ("x")]]
    ∧ (clean_data_file exC7med).cols.map (fun c => c.cells) =
        [[Cell.num 1, Cell.num 2, Cell.num 2, Cell.num 4],
         [Cell.str ("p"), Cell.str ("q"), Cell.str ("r"), Cell.str ("s")]]
    ∧ (clean_data_file exC7allna).cols.map (fun c => c.name) = ["a"] :=
  claim7_amended exC7tie 5 (by with_unfolding_all decide)
    (by with_unfolding_all decide)
/-- A constant numeric column has zero variance, so its z-scores degenerate
and the outlier count of detect_outliers is zero, for every value and
length. -/
theorem outlierCountCol_replicate (q : Rat) (n : Nat) :
    outlierCountCol (List.replicate n (Cell.num q)) = 0 := by
  simp only [outlierCountCol]
  have hv : List.filterMap (fun x => match x with
      | Cell.num q2 => some q2
      | _ => none) (List.replicate n (Cell.num q)) = List.replicate n q := by
    induction n with
    | zero => rfl
    | succ k ih =>
      simp only [List.replicate_succ, List.filterMap_cons]
      simp [ih]
  rw [hv]
  rcases Nat.eq_zero_or_pos n with hn | hn
  · subst hn; rfl
  · have hn0 : n ≠ 0 := Nat.pos_iff_ne_zero.mp hn
    rw [List.length_replicate]
    rw [if_neg hn0]
    have hsum : (List.replicate n q).sum = (n : Rat) * q := by
      rw [List.sum_replicate, nsmul_eq_mul]
    rw [hsum]
    have hne : ((n : Nat) : Rat) ≠ 0 := Nat.cast_ne_zero.mpr hn0
    rw [mul_div_cancel_left₀ q hne]
    have hmap : (List.replicate n q).map (fun v => (v - q) ^ 2) =
        List.replicate n 0 := by
      rw [List.map_replicate]
      congr 1
      simp
    rw [hmap]
    have hz : (List.replicate n (0 : Rat)).sum = 0 := by
      rw [List.sum_replicate]
      simp
    rw [hz, zero_div, if_pos rfl]

/-- C9 counterexample: on the column 1,2,3,4,100 detect_outliers reports
zero outliers, not at least one: with five values the population z-score
is at most 2, so the |z| greater than 3 test never fires. -/
theorem claim9_counterexample :
    detect_outliers exSpike = [("a", 0)] ∧ ¬ (1 ≤ 0) := by
  refine ⟨by with_unfolding_all decide, by decide⟩

/-- C9 amended: detect_outliers yields count 0 both for 1,2,3,4,100 (the
threshold 3.0 cannot be exceeded in a population of five) and for the
zero-variance column 5,5,5,5,5, in both cases without raising or dividing
by zero; in general every constant numeric column yields count 0. -/
theorem claim9_amended :
    detect_outliers exSpike = [("a", 0)] ∧
      detect_outliers exConst = [("a", 0)] ∧
      ∀ (q : Rat) (n : Nat),
        outlierCountCol (List.replicate n (Cell.num q)) = 0 :=
  ⟨by with_unfolding_all decide, by with_unfolding_all decide,
    fun q n => outlierCountCol_replicate q n⟩

/-- C10: in clean_dataframe, a cell of a text-typed column that is still
the missing marker when the astype/strip step (line 66) runs leaves the
pipeline as the literal non-missing string "nan": astype(str) stringifies
the marker, and the replacement list holds "NaN" but not "nan", so
replace_na_like_values does not map it back to missing. -/
theorem claim10_missing_text_becomes_nan (df : DF) (i j : Nat)
    (hi : i < (preStripStage df).rows.length)
    (hj : j < ((preStripStage df).rows.getD i []).length)
    (hdt : (preStripStage df).dtypes.getD j Dtype.numeric = Dtype.obj)
    (hna : ((preStripStage df).rows.getD i []).getD j Cell.na = Cell.na) :
    getCell (clean_dataframe df) i j = Cell.str ("nan") ∧
      ("nan") ∉ na_values ∧ ("NaN") ∈ na_values := by
  refine ⟨?_, by decide, by decide⟩
  have hjd : j < (preStripStage df).dtypes.length := by
    by_contra hcon
    push_neg at hcon
    rw [getD_of_le _ _ _ hcon] at hdt
    exact Dtype.noConfusion hdt
  rw [clean_dataframe_as_prestrip]
  unfold getCell replace_na_like_values
  dsimp only
  rw [getD_map_of_lt (fun r => List.map replaceCell r) _ i
    (by simpa using hi) [] []]
  rw [getD_map_of_lt (fun r => List.zipWith stripDC (preStripStage df).dtypes r)
    _ i hi [] []]
  have hj2 : j < (List.zipWith stripDC (preStripStage df).dtypes
      ((preStripStage df).rows.getD i [])).length := by
    rw [List.length_zipWith]
    exact lt_min hjd hj
  rw [getD_map_of_lt replaceCell _ j hj2 Cell.na Cell.na]
  rw [getD_zipWith_of_lt stripDC _ _ j hjd hj Cell.na Dtype.numeric Cell.na]
  rw [hdt, hna]
  with_unfolding_all decide

theorem claim10_witness :
    1 < (preStripStage exC10).rows.length ∧
      1 < ((preStripStage exC10).rows.getD 1 []).length ∧
      (preStripStage exC10).dtypes.getD 1 Dtype.numeric = Dtype.obj ∧
      ((preStripStage exC10).rows.getD 1 []).getD 1 Cell.na = Cell.na ∧
      (getCell (clean_dataframe exC10) 1 1 = Cell.str ("nan") ∧
        ("nan") ∉ na_values ∧ ("NaN") ∈ na_values) :=
  ⟨by with_unfolding_all decide, by with_unfolding_all decide,
    by with_unfolding_all decide, by with_unfolding_all decide,
    claim10_missing_text_becomes_nan exC10 1 1
      (by with_unfolding_all decide) (by with_unfolding_all decide)
      (by with_unfolding_all decide) (by with_unfolding_all decide)⟩

/-- C8: after clean_data_file, no numeric column of a well-formed,
dtype-consistent table contains a missing value (in particular every
numeric column that contained at least one non-missing value is fully
imputed: all-missing columns are dropped beforehand, and the median fill
replaces every remaining missing cell); and clean_and_report never
produces a cleaned table at all — its parse step always raises, so every
run returns the error report and the quantification of the claim over its
outputs is vacuous. -/
theorem claim8_numeric_imputation (df : CDF) (n : Nat)
    (hlen : ∀ c ∈ df.cols, c.cells.length = n)
    (hnum : ∀ c ∈ df.cols, c.dtype = Dtype.numeric →
      ∀ x ∈ c.cells, x = Cell.na ∨ isNumB x = true) :
    (∀ c ∈ (clean_data_file df).cols, c.dtype = Dtype.numeric →
      Cell.na ∉ c.cells)
    ∧ (∀ (parsers : String → String → Except PyErr DF) (file_path : String),
        (clean_and_report parsers file_path).2.status = "error") := by
  refine ⟨?_, fun _ _ => rfl⟩
  intro c hc hdt
  simp only [clean_data_file] at hc
  obtain ⟨c5, hc5, he5⟩ := List.mem_map.mp hc
  obtain ⟨c4, hc4, he4⟩ := List.mem_map.mp hc5
  obtain ⟨c3, hc3, he3⟩ := List.mem_map.mp hc4
  obtain ⟨c2, hc2, he2⟩ := List.mem_map.mp hc3
  subst he5 he4 he3 he2
  rw [stripCatCol_dtype, fillCatCol_dtype, fillNumCol_dtype] at hdt
  have hdt2 : c2.dtype = Dtype.numeric := hdt
  rw [stripCatCol_of_numeric _ (by rw [fillCatCol_dtype, fillNumCol_dtype]; exact hdt)]
  rw [fillCatCol_of_numeric _ (by rw [fillNumCol_dtype]; exact hdt)]
  obtain ⟨j, hj, hjd, hjc⟩ := dropDupRowsC_cols_char _ c2 hc2
  have hcj : (List.filter (fun c => !(c.cells.all isNaB)) df.cols).getD j colDefault ∈
      List.filter (fun c => !(c.cells.all isNaB)) df.cols :=
    getD_mem _ j colDefault hj
  have hcj2 := List.mem_filter.mp hcj
  have hallf : ((List.filter (fun c => !(c.cells.all isNaB)) df.cols).getD j
      colDefault).cells.all isNaB = false := by
    have := hcj2.2
    simp only [Bool.not_eq_true'] at this
    exact this
  have hex : ∃ x ∈ ((List.filter (fun c => !(c.cells.all isNaB)) df.cols).getD j
      colDefault).cells, isNaB x = false := by
    by_contra hcon
    push_neg at hcon
    have hall : ((List.filter (fun c => !(c.cells.all isNaB)) df.cols).getD j
        colDefault).cells.all isNaB = true :=
      List.all_eq_true.mpr (fun x hx => by
        have hne := hcon x hx
        cases hh : isNaB x with
        | false => exact absurd hh hne
        | true => rfl)
    rw [hall] at hallf
    exact Bool.noConfusion hallf
  obtain ⟨x, hx, hxna⟩ := hex
  have hdtj : ((List.filter (fun c => !(c.cells.all isNaB)) df.cols).getD j
      colDefault).dtype = Dtype.numeric := by
    rw [← hjd]
    exact hdt2
  have hxq := hnum _ hcj2.1 hdtj x hx
  have hq : ∃ q, x = Cell.num q := by
    rcases hxq with h1 | h1
    · rw [h1] at hxna
      simp [isNaB] at hxna
    · cases x with
      | na => simp [isNaB] at hxna
      | str s => simp [isNumB] at h1
      | num q => exact ⟨q, rfl⟩
  obtain ⟨q, hqe⟩ := hq
  subst hqe
  have hlen1 : ∀ c0 ∈ List.filter (fun c => !(c.cells.all isNaB)) df.cols,
      c0.cells.length = n :=
    fun c0 hc0 => hlen c0 (List.mem_filter.mp hc0).1
  have hval : Cell.num q ∈ c2.cells := by
    rw [hjc]
    exact dedup_col_value _ n hlen1 j hj (Cell.num q) hx
  exact fillNumCol_no_na _ hdt2 ⟨q, hval⟩

theorem claim8_witness :
    (∀ c ∈ (clean_data_file wdfC8).cols, c.dtype = Dtype.numeric →
      Cell.na ∉ c.cells)
    ∧ (∀ (parsers : String → String → Except PyErr DF) (file_path : String),
        (clean_and_report parsers file_path).2.status = "error") :=
  claim8_numeric_imputation wdfC8 2 (by with_unfolding_all decide)
    (by with_unfolding_all decide)
